import Mathlib

/-! Shallow embedding of the pyterminal command interpreter.

The repository has two variants of the same interpreter: `app.py` (the
Flask web variant) and `terminal.py` (the CLI variant).  Both are
embedded below as pure functions over an explicit world state `Wld`.
Definitions with suffix `A` embed `app.py`, suffix `T` embeds
`terminal.py`.  The OpenAI completion call and the subprocess call are
modelled as oracle parameters; `psutil` data and the clock live in the
world state. -/

namespace PyTerm

/-- ASCII whitespace recognised by the model of Python `str.split()`. -/
def isWs (c : Char) : Bool := c = ' ' || c = '\t' || c = '\n' || c = '\r'

/-- Model of Python `str.lower()` (ASCII case folding). -/
def strLower (s : String) : String := String.mk (s.data.map Char.toLower)

/-- Helper for `pySplit`: the second argument accumulates the current
word, reversed. -/
def splitWsAux : List Char → List Char → List String
  | [], acc => if acc.isEmpty then [] else [String.mk acc.reverse]
  | ch :: rest, acc =>
    if isWs ch then
      if acc.isEmpty then splitWsAux rest []
      else String.mk acc.reverse :: splitWsAux rest []
    else splitWsAux rest (ch :: acc)

/-- Model of Python `str.split()` with no separator: split on whitespace
runs, dropping empty words (so `s.strip().split()` and `s.split()`
coincide). -/
def pySplit (s : String) : List String := splitWsAux s.data []

/-- Does `pat` occur at the head of `l`? -/
def leadMatch : List Char → List Char → Bool
  | [], _ => true
  | _ :: _, [] => false
  | p :: ps, c :: cs => p = c && leadMatch ps cs

/-- Model of Python `s.startswith(pre)`. -/
def strStartsWith (s pre : String) : Bool := leadMatch pre.data s.data

/-- Drop leading whitespace from a character list. -/
def dropWs : List Char → List Char
  | [] => []
  | c :: cs => if isWs c then dropWs cs else c :: cs

/-- Model of Python `str.strip()` (whitespace restricted to `isWs`). -/
def strTrim (s : String) : String :=
  String.mk ((dropWs ((dropWs s.data).reverse)).reverse)

/-- Lexicographic comparison on code points, as Python string `<=`. -/
def charListLe (xs ys : List Char) : Bool :=
  match xs, ys with
  | [], _ => true
  | c1 :: t1, c2 :: t2 => if c1 = c2 then charListLe t1 t2 else decide (c1 < c2)
  | _ :: _, [] => false

/-- Model of Python string comparison used by `sorted`. -/
def strLe (a b : String) : Bool := charListLe a.data b.data

/-- Model of the Python substring test `pat in s` (contiguous occurrence). -/
def occursIn (pat : List Char) : List Char → Bool
  | [] => leadMatch pat []
  | c :: cs => leadMatch pat (c :: cs) || occursIn pat cs

/-- A filesystem entry: a directory, or a file with its text content. -/
inductive FsEntry
  | dir
  | file (content : String)
deriving DecidableEq

/-- The filesystem: an association list from absolute path components to
entries. -/
abbrev Fs := List (List String × FsEntry)

def fsLookup : Fs → List String → Option FsEntry
  | [], _ => none
  | (q, e) :: rest, p => if q = p then some e else fsLookup rest p

/-- Model of `os.path.isdir` (the root, empty component list, is always a
directory). -/
def fsIsDir (fs : Fs) (p : List String) : Bool :=
  p.isEmpty || (match fsLookup fs p with | some FsEntry.dir => true | _ => false)

/-- Model of `os.path.isfile`. -/
def fsIsFile (fs : Fs) (p : List String) : Bool :=
  match fsLookup fs p with | some (FsEntry.file _) => true | _ => false

/-- Model of `os.path.exists`. -/
def fsExists (fs : Fs) (p : List String) : Bool := fsIsDir fs p || fsIsFile fs p

/-- Split a path string on the separator `/`. -/
def slashAux : List Char → List Char → List String
  | [], acc => [String.mk acc.reverse]
  | c :: cs, acc =>
    if c = '/' then String.mk acc.reverse :: slashAux cs []
    else slashAux cs (c :: acc)

/-- One step of textual path resolution: empty and `.` components are
skipped, `..` pops the last component. -/
def resolveStep (acc : List String) (comp : String) : List String :=
  if comp = "" || comp = "." then acc
  else if comp = ".." then acc.dropLast
  else acc ++ [comp]

/-- Resolve a path string against the current directory. -/
def resolvePath (cwd : List String) (s : String) : List String :=
  (slashAux s.data []).foldl resolveStep (if strStartsWith s ("/") then [] else cwd)

/-- Absolute path rendering, as `os.getcwd()` would print it. -/
def renderPath (p : List String) : String := "/" ++ String.intercalate ("/") p

/-- Expansion of a leading `~`, as `os.path.expanduser` behaves for the
calling user.  A `~otheruser` form is returned unchanged, matching Python
when the named user is unknown. -/
def expandUser (home : List String) (s : String) : String :=
  if s = "~" then renderPath home
  else if strStartsWith s ("~/") then renderPath home ++ String.mk (s.data.drop 1)
  else s

/-- One history ledger record (`datetime.now().isoformat()` abstracted to
a counter read from the world clock). -/
structure HEntry where
  timestamp : Nat
  command : String
  output : String
  success : Bool
deriving DecidableEq

/-- One record yielded by `psutil.process_iter`; `ok` is false when the
process disappears, denies access, or is a zombie when its info is read. -/
structure PInfo where
  pid : Nat
  name : String
  ok : Bool
deriving DecidableEq

/-- The `(success, output, error)` triple every execution path returns. -/
structure CmdResult where
  success : Bool
  output : String
  error : String
deriving DecidableEq

/-- Session-keyed history map (a Python dict, insertion ordered). -/
abbrev HistMap := List (String × List HEntry)

def dictGet : HistMap → String → Option (List HEntry)
  | [], _ => none
  | (k, v) :: rest, sid => if k = sid then some v else dictGet rest sid

def dictSet : HistMap → String → List HEntry → HistMap
  | [], sid, v => [(sid, v)]
  | (k, v0) :: rest, sid, v =>
    if k = sid then (sid, v) :: rest else (k, v0) :: dictSet rest sid v

/-- Embeds `add_to_history` from `app.py`: create the session's list when
missing, then append the new record at the end. -/
def addToHistory (m : HistMap) (sid : String) (e : HEntry) : HistMap :=
  dictSet m sid ((dictGet m sid).getD [] ++ [e])

/-- Embeds the `/history` route handler `get_history` from `app.py`:
`command_history.get(session_id, [])`. -/
def getHistoryRoute (m : HistMap) (sid : String) : List HEntry :=
  (dictGet m sid).getD []

/-- World state threaded through every handler. -/
structure Wld where
  fs : Fs
  cwd : List String
  home : List String
  cpu : Nat
  memPercent : Nat
  memTotal : Nat
  memAvail : Nat
  memUsed : Nat
  procs : List PInfo
  hist : HistMap
  time : Nat
deriving DecidableEq

/-- Colorama escape code `Fore.GREEN`. -/
def foreGreen : String := "\x1b[32m"

/-- Colorama escape code `Fore.YELLOW`. -/
def foreYellow : String := "\x1b[33m"

/-- Colorama escape code `Fore.RED`. -/
def foreRed : String := "\x1b[31m"

/-- Colorama escape code `Fore.CYAN`. -/
def foreCyan : String := "\x1b[36m"

/-- Colorama escape code `Fore.BLUE`. -/
def foreBlue : String := "\x1b[34m"

/-- Colorama escape code `Fore.MAGENTA`. -/
def foreMagenta : String := "\x1b[35m"

/-- Colorama escape code `Fore.LIGHTBLUE_EX`. -/
def foreLightBlue : String := "\x1b[94m"

/-- Colorama escape code `Style.RESET_ALL`. -/
def styleReset : String := "\x1b[0m"

/-- Colorama escape code `Style.BRIGHT`. -/
def styleBright : String := "\x1b[1m"

/-- Embeds `_handle_pwd` from `app.py`. -/
def handlePwdA (w : Wld) : CmdResult := ⟨true, renderPath w.cwd, ""⟩

/-- Embeds `_handle_pwd` from `terminal.py` (trailing newline). -/
def handlePwdT (w : Wld) : CmdResult := ⟨true, renderPath w.cwd ++ "\n", ""⟩

/-- Human-scaled size suffix used by `_handle_ls` (binary 1024 divisors,
integer truncation). -/
def sizeStr (n : Nat) : String :=
  if n < 1024 then toString n ++ "B"
  else if n < 1024 * 1024 then toString (n / 1024) ++ "KB"
  else toString (n / (1024 * 1024)) ++ "MB"

/-- Children of directory `p`, as `os.listdir` would yield them. -/
def childNames (fs : Fs) (p : List String) : List String :=
  fs.filterMap (fun qe =>
    if qe.1.dropLast = p ∧ qe.1 ≠ [] then some (qe.1.getLastD ("")) else none)

/-- One output line of `_handle_ls` for entry `name` of directory `p`
(`os.path.getsize` modelled as the UTF-8 byte size of the content). -/
def lsLine (fs : Fs) (p : List String) (name : String) : String :=
  if fsIsDir fs (p ++ [name]) then "📁 " ++ name ++ "/"
  else
    match fsLookup fs (p ++ [name]) with
    | some (FsEntry.file c) => "📄 " ++ name ++ " (" ++ sizeStr c.utf8ByteSize ++ ")"
    | _ => "📄 " ++ name

/-- The sorted, rendered listing body shared by both `_handle_ls` variants. -/
def lsNames (fs : Fs) (p : List String) : List String :=
  List.insertionSort (fun a b : String => strLe a b = true) (childNames fs p)

/-- Embeds `_handle_ls` from `app.py`. -/
def handleLsA (w : Wld) (args : List String) : CmdResult :=
  let target := args.headD (".")
  let p := resolvePath w.cwd target
  if !fsExists w.fs p then ⟨false, "", "Directory not found: \x27" ++ target ++ "\x27"⟩
  else if !fsIsDir w.fs p then ⟨false, "", "Not a directory: \x27" ++ target ++ "\x27"⟩
  else
    let names := lsNames w.fs p
    if names.isEmpty then ⟨true, "Directory is empty", ""⟩
    else ⟨true, String.intercalate ("\n") (names.map (lsLine w.fs p)), ""⟩

/-- Embeds `_handle_ls` from `terminal.py` (trailing newline variants). -/
def handleLsT (w : Wld) (args : List String) : CmdResult :=
  let target := args.headD (".")
  let p := resolvePath w.cwd target
  if !fsExists w.fs p then ⟨false, "", "Directory not found: \x27" ++ target ++ "\x27"⟩
  else if !fsIsDir w.fs p then ⟨false, "", "Not a directory: \x27" ++ target ++ "\x27"⟩
  else
    let names := lsNames w.fs p
    if names.isEmpty then ⟨true, "Directory is empty\n", ""⟩
    else ⟨true, String.intercalate ("\n") (names.map (lsLine w.fs p)) ++ "\n", ""⟩

inductive CdErr
  | notFound
  | notADir
deriving DecidableEq

/-- Is some proper leading segment of `p` a file? -/
def ancFile (fs : Fs) (p : List String) : Bool :=
  (List.range p.length).any (fun i => fsIsFile fs (p.take i))

/-- Model of `os.chdir` (permission failures are outside this model). -/
def chdirW (w : Wld) (s : String) : Except CdErr Wld :=
  let p := resolvePath w.cwd s
  if fsIsDir w.fs p then Except.ok {w with cwd := p}
  else if fsIsFile w.fs p || ancFile w.fs p then Except.error CdErr.notADir
  else Except.error CdErr.notFound

/-- The target-dependent branch shared by both `_handle_cd_robust`
variants: `..`, `.` and a leading `~` are special-cased before the plain
`os.chdir` call. -/
def cdCore (w : Wld) (t : String) : Except CdErr Wld :=
  if t = ".." then chdirW w ("..")
  else if t = "." then Except.ok w
  else if strStartsWith t ("~") then chdirW w (expandUser w.home t)
  else chdirW w t

/-- Embeds `_handle_cd_robust` from `app.py`: success reports the new
absolute directory. -/
def handleCdA (w : Wld) (args : List String) : Wld × CmdResult :=
  match args with
  | [] => (w, ⟨false, "", "cd: missing directory argument. Usage: cd <directory>"⟩)
  | t :: _ =>
    match cdCore w t with
    | Except.ok w1 => (w1, ⟨true, "Changed to: " ++ renderPath w1.cwd, ""⟩)
    | Except.error CdErr.notFound =>
      (w, ⟨false, "", "cd: no such directory: \x27" ++ t ++ "\x27"⟩)
    | Except.error CdErr.notADir =>
      (w, ⟨false, "", "cd: not a directory: \x27" ++ t ++ "\x27"⟩)

/-- Embeds `_handle_cd_robust` from `terminal.py`: silent success (the
prompt, not the handler output, shows the new directory). -/
def handleCdT (w : Wld) (args : List String) : Wld × CmdResult :=
  match args with
  | [] => (w, ⟨false, "", "cd: missing directory argument. Usage: cd <directory>"⟩)
  | t :: _ =>
    match cdCore w t with
    | Except.ok w1 => (w1, ⟨true, "", ""⟩)
    | Except.error CdErr.notFound =>
      (w, ⟨false, "", "cd: no such directory: \x27" ++ t ++ "\x27"⟩)
    | Except.error CdErr.notADir =>
      (w, ⟨false, "", "cd: not a directory: \x27" ++ t ++ "\x27"⟩)

inductive MkErr
  | already
  | osErr
deriving DecidableEq

/-- Leading segments `p.take 1 … p.take p.length` of a path. -/
def initSegs (p : List String) : List (List String) :=
  (List.range p.length).map (fun i => p.take (i + 1))

/-- Directory entries `os.makedirs` creates for target `p`. -/
def mkdirAdds (fs : Fs) (p : List String) : Fs :=
  ((initSegs p).filter (fun q => !fsExists fs q)).map (fun q => (q, FsEntry.dir))

/-- Model of `os.makedirs(p, exist_ok=False)`: raises `FileExistsError`
when the target exists (whether as a directory or as a file), raises an
`OSError` when a leading segment is a file, and otherwise creates the
leaf together with every missing ancestor. -/
def makedirs (fs : Fs) (p : List String) : Except MkErr Fs :=
  if fsExists fs p then Except.error MkErr.already
  else if ancFile fs p then Except.error MkErr.osErr
  else Except.ok (mkdirAdds fs p ++ fs)

/-- Embeds `_handle_mkdir_robust` from `app.py`.  Both `FileExistsError`
cases (target is a directory, target is a file) produce one and the same
message; the free text of a Python `OSError` is abstracted. -/
def handleMkdirA (w : Wld) (args : List String) : Wld × CmdResult :=
  match args with
  | [] => (w, ⟨false, "", "mkdir: missing directory name. Usage: mkdir <directory_name>"⟩)
  | d :: _ =>
    match makedirs w.fs (resolvePath w.cwd d) with
    | Except.ok fs1 => ({w with fs := fs1}, ⟨true, "Created directory: " ++ d, ""⟩)
    | Except.error MkErr.already =>
      (w, ⟨false, "", "mkdir: cannot create directory \x27" ++ d ++ "\x27: File exists"⟩)
    | Except.error MkErr.osErr =>
      (w, ⟨false, "", "mkdir: cannot create directory \x27" ++ d ++ "\x27: Not a directory"⟩)

/-- Embeds `_handle_mkdir_robust` from `terminal.py`. -/
def handleMkdirT (w : Wld) (args : List String) : Wld × CmdResult :=
  match args with
  | [] => (w, ⟨false, "", "mkdir: missing directory name. Usage: mkdir <directory_name>"⟩)
  | d :: _ =>
    match makedirs w.fs (resolvePath w.cwd d) with
    | Except.ok fs1 =>
      ({w with fs := fs1},
        ⟨true, foreGreen ++ "Created directory: " ++ d ++ styleReset ++ "\n", ""⟩)
    | Except.error MkErr.already =>
      (w, ⟨false, "", "mkdir: cannot create directory \x27" ++ d ++ "\x27: File exists"⟩)
    | Except.error MkErr.osErr =>
      (w, ⟨false, "", "mkdir: cannot create directory \x27" ++ d ++ "\x27: Not a directory"⟩)

/-- Embeds `_handle_rm_robust` from `app.py`: refuses directories, then
removes the file. -/
def handleRmA (w : Wld) (args : List String) : Wld × CmdResult :=
  match args with
  | [] => (w, ⟨false, "", "rm: missing file name. Usage: rm <file_name>"⟩)
  | f :: _ =>
    let p := resolvePath w.cwd f
    if fsIsDir w.fs p then
      (w, ⟨false, "", "rm: cannot remove \x27" ++ f ++ "\x27: Is a directory"⟩)
    else if fsIsFile w.fs p then
      ({w with fs := w.fs.filter (fun qe => qe.1 ≠ p)},
        ⟨true, "Removed file: " ++ f, ""⟩)
    else (w, ⟨false, "", "rm: cannot remove \x27" ++ f ++ "\x27: No such file"⟩)

/-- Embeds `_handle_rm_robust` from `terminal.py`. -/
def handleRmT (w : Wld) (args : List String) : Wld × CmdResult :=
  match args with
  | [] => (w, ⟨false, "", "rm: missing file name. Usage: rm <file_name>"⟩)
  | f :: _ =>
    let p := resolvePath w.cwd f
    if fsIsDir w.fs p then
      (w, ⟨false, "", "rm: cannot remove \x27" ++ f ++ "\x27: Is a directory"⟩)
    else if fsIsFile w.fs p then
      ({w with fs := w.fs.filter (fun qe => qe.1 ≠ p)},
        ⟨true, foreGreen ++ "Removed file: " ++ f ++ styleReset ++ "\n", ""⟩)
    else (w, ⟨false, "", "rm: cannot remove \x27" ++ f ++ "\x27: No such file"⟩)

/-- Embeds `_handle_cat_robust` from `app.py` (the decode-with-replacement
read never fails on content, so a present regular file always succeeds). -/
def handleCatA (w : Wld) (args : List String) : CmdResult :=
  match args with
  | [] => ⟨false, "", "cat: missing file name. Usage: cat <file_name>"⟩
  | f :: _ =>
    let p := resolvePath w.cwd f
    if !fsExists w.fs p then ⟨false, "", "cat: no such file: \x27" ++ f ++ "\x27"⟩
    else
      match fsLookup w.fs p with
      | some (FsEntry.file c) => ⟨true, c, ""⟩
      | _ => ⟨false, "", "cat: \x27" ++ f ++ "\x27 is not a file"⟩

/-- Embeds `_handle_cat_robust` from `terminal.py` (trailing newline). -/
def handleCatT (w : Wld) (args : List String) : CmdResult :=
  match args with
  | [] => ⟨false, "", "cat: missing file name. Usage: cat <file_name>"⟩
  | f :: _ =>
    let p := resolvePath w.cwd f
    if !fsExists w.fs p then ⟨false, "", "cat: no such file: \x27" ++ f ++ "\x27"⟩
    else
      match fsLookup w.fs p with
      | some (FsEntry.file c) => ⟨true, c ++ "\n", ""⟩
      | _ => ⟨false, "", "cat: \x27" ++ f ++ "\x27 is not a file"⟩

/-- Embeds `_handle_cpu` from `app.py` (`psutil.cpu_percent(interval=1)`
abstracted to the world's `cpu` field; float rendering abstracted). -/
def handleCpuA (w : Wld) : CmdResult := ⟨true, "CPU Usage: " ++ toString w.cpu ++ "%", ""⟩

/-- Embeds `_handle_cpu` from `terminal.py`. -/
def handleCpuT (w : Wld) : CmdResult :=
  ⟨true, foreYellow ++ "CPU Usage: " ++ toString w.cpu ++ "%" ++ styleReset ++ "\n", ""⟩

/-- Fixed-point rendering of one tenth-valued quantity, used by
`formatBytes`. -/
def fbRender (t : Nat) (u : String) : String :=
  toString (t / 10) ++ "." ++ toString (t % 10) ++ " " ++ u

/-- Loop of `format_bytes`, carried in tenths of the current unit. -/
def fbGo : Nat → List String → String
  | t, [] => fbRender t ("PB")
  | t, u :: us => if t < 10240 then fbRender t u else fbGo (t / 1024) us

/-- Model of the nested `format_bytes` helper (one decimal place; the
source's float arithmetic is approximated by integer tenths). -/
def formatBytes (b : Nat) : String := fbGo (b * 10) [("B"), ("KB"), ("MB"), ("GB"), ("TB")]

/-- Embeds `_handle_memory` from `app.py`. -/
def handleMemoryA (w : Wld) : CmdResult :=
  ⟨true,
    "Memory Usage: " ++ toString w.memPercent ++ "%\n" ++
      "Total: " ++ formatBytes w.memTotal ++ " | Available: " ++ formatBytes w.memAvail ++
      " | Used: " ++ formatBytes w.memUsed,
    ""⟩

/-- Embeds `_handle_memory` from `terminal.py`. -/
def handleMemoryT (w : Wld) : CmdResult :=
  ⟨true,
    foreYellow ++ "Memory Usage: " ++ toString w.memPercent ++ "%" ++ styleReset ++ "\n" ++
      foreYellow ++ "Total: " ++ formatBytes w.memTotal ++ " | Available: " ++
      formatBytes w.memAvail ++ " | Used: " ++ formatBytes w.memUsed ++ styleReset ++ "\n",
    ""⟩

/-- Left-justification to width 8, as the format `{pid:<8}` does. -/
def padTo8 (s : String) : String := s ++ String.mk (List.replicate (8 - s.length) ' ')

/-- Right-justification to width 2, as the format `{i:2d}` does. -/
def padLeft2 (s : String) : String := String.mk (List.replicate (2 - s.length) ' ') ++ s

/-- A run of `n` dashes, as `"-" * n`. -/
def dashes (n : Nat) : String := String.mk (List.replicate n '-')

/-- The `(pid, name)` pairs collected by `_handle_processes`: every process
is counted, but only accessible ones are kept (the `except … continue`). -/
def accPairs (ps : List PInfo) : List (Nat × String) :=
  (ps.filter (fun p => p.ok)).map (fun p => (p.pid, p.name))

/-- The `processes.sort(key=lambda x: x[0])` call: a stable sort by pid. -/
def pidSort (l : List (Nat × String)) : List (Nat × String) :=
  List.insertionSort (fun a b => a.1 ≤ b.1) l

/-- One table line of the process listing. -/
def procLine (pr : Nat × String) : String := padTo8 (toString pr.1) ++ " " ++ pr.2 ++ "\n"

/-- Header and first-20 table shared by both `_handle_processes` variants. -/
def processesBody (ps : List PInfo) : String :=
  "Total Processes: " ++ toString ps.length ++ "\n" ++ "Showing top 20:\n" ++
    "PID     Name\n" ++ dashes 30 ++ "\n" ++
    String.join (((pidSort (accPairs ps)).take 20).map procLine)

/-- Embeds `_handle_processes` from `app.py`. -/
def handleProcessesA (ps : List PInfo) : CmdResult :=
  ⟨true,
    processesBody ps ++
      (if 20 < ps.length then
        "... and " ++ toString (ps.length - 20) ++ " more processes" else ""),
    ""⟩

/-- Embeds `_handle_processes` from `terminal.py` (trailing newline on the
truncation note). -/
def handleProcessesT (ps : List PInfo) : CmdResult :=
  ⟨true,
    processesBody ps ++
      (if 20 < ps.length then
        "... and " ++ toString (ps.length - 20) ++ " more processes\n" else ""),
    ""⟩

/-- The static help text of `_handle_help` in `app.py`. -/
def helpTextA (ai : Bool) : String :=
  "Available Commands:\n" ++
    "ls <dir>     - List files and directories in the current folder\n" ++
    "cd <dir>     - Change the current working directory\n" ++
    "pwd          - Print the current working directory\n" ++
    "mkdir <dir>  - Create a new directory\n" ++
    "rm <file>    - Remove a file\n" ++
    "cat <file>   - Display the contents of a file\n" ++
    "cpu          - Show CPU usage percentage\n" ++
    "mem/memory   - Show Memory usage statistics\n" ++
    "processes/ps - List running processes\n" ++
    "clear        - Clear the terminal screen\n" ++
    "history      - Show command history\n" ++
    "help         - Show this help message\n" ++
    "tellmeabout_developer - Show developer information\n\n" ++
    "AI Features:\n" ++
    "Natural Language - Type natural language commands (3+ words)\n" ++
    "AI Status: " ++ (if ai then "Enabled" else "Disabled") ++ "\n\n" ++
    "Note: External system commands are also supported through subprocess.\n\n" ++
    "designed by Abhinav"

/-- Embeds `_handle_help` from `app.py`. -/
def handleHelpA (ai : Bool) : CmdResult := ⟨true, helpTextA ai, ""⟩

/-- The colorised help text of `_handle_help` in `terminal.py`. -/
def helpTextT (ai : Bool) : String :=
  foreBlue ++ "Available Commands:" ++ styleReset ++ "\n" ++
    foreCyan ++ "ls <dir>" ++ styleReset ++ "     - List files and directories in the current folder\n" ++
    foreCyan ++ "cd <dir>" ++ styleReset ++ "     - Change the current working directory\n" ++
    foreCyan ++ "pwd" ++ styleReset ++ "          - Print the current working directory\n" ++
    foreCyan ++ "mkdir <dir>" ++ styleReset ++ "  - Create a new directory\n" ++
    foreCyan ++ "rm <file>" ++ styleReset ++ "    - Remove a file\n" ++
    foreCyan ++ "cat <file>" ++ styleReset ++ "   - Display the contents of a file\n" ++
    foreCyan ++ "cpu" ++ styleReset ++ "          - Show CPU usage percentage\n" ++
    foreCyan ++ "mem/memory" ++ styleReset ++ "   - Show Memory usage statistics\n" ++
    foreCyan ++ "processes/ps" ++ styleReset ++ " - List running processes\n" ++
    foreCyan ++ "clear" ++ styleReset ++ "        - Clear the terminal screen\n" ++
    foreCyan ++ "help" ++ styleReset ++ "         - Show this help message\n" ++
    foreCyan ++ "tellmeabout_developer" ++ styleReset ++ " - Show developer information\n" ++
    foreCyan ++ "exit/quit" ++ styleReset ++ "    - Exit the terminal\n\n" ++
    foreMagenta ++ "AI Features:" ++ styleReset ++ "\n" ++
    foreCyan ++ "Natural Language" ++ styleReset ++ " - Type natural language commands (3+ words)\n" ++
    foreCyan ++ "AI Status:" ++ styleReset ++ " " ++
    (if ai then foreGreen ++ "Enabled" ++ styleReset else foreRed ++ "Disabled" ++ styleReset) ++
    "\n\n" ++
    foreYellow ++ "Note: External system commands are also supported through subprocess." ++
    styleReset ++ "\n\n" ++ foreLightBlue ++ "designed by Abhinav" ++ styleReset

/-- Embeds `_handle_help` from `terminal.py` (trailing newline). -/
def handleHelpT (ai : Bool) : CmdResult := ⟨true, helpTextT ai ++ "\n", ""⟩

/-- The `+====…====+` border row of the developer banner (62 equals
signs between the two plus signs). -/
def eqRow : String := "+" ++ String.mk (List.replicate 62 '=') ++ "+"

/-- The static banner of `_handle_developer_info` in `app.py`. -/
def devTextA : String :=
  "\n" ++ eqRow ++ "\n" ++
    "|                    DEVELOPER INFORMATION                    |\n" ++
    eqRow ++ "\n" ++
    "|                                                              |\n" ++
    "|  Name:    Abhinav Singh (RA2211033010203)                   |\n" ++
    "|                                                              |\n" ++
    "|  College: SRM Institute of Science and Technology          |\n" ++
    "|                                                              |\n" ++
    "|  Course:  B.Tech Computer Science Engineering with        |\n" ++
    "|            specialization in Software Engineering              |\n" ++
    "|                                                              |\n" ++
    eqRow ++ "\n\n" ++
    "Thank you for using PyTerminal Web!\n"

/-- Embeds `_handle_developer_info` from `app.py`. -/
def handleDevA : CmdResult := ⟨true, devTextA, ""⟩

/-- The colorised banner of `_handle_developer_info` in `terminal.py`. -/
def devTextT : String :=
  "\n" ++
    foreCyan ++ eqRow ++ styleReset ++ "\n" ++
    foreCyan ++ "|                    " ++ styleBright ++ "DEVELOPER INFORMATION" ++ styleReset ++
    foreCyan ++ "                    |" ++ styleReset ++ "\n" ++
    foreCyan ++ eqRow ++ styleReset ++ "\n" ++
    foreCyan ++ "|" ++ styleReset ++ "                                                              " ++
    foreCyan ++ "|" ++ styleReset ++ "\n" ++
    foreCyan ++ "|" ++ styleReset ++ "  " ++ foreGreen ++ "Name:" ++ styleReset ++
    "    Abhinav Singh (RA2211033010203)                    " ++ foreCyan ++ "|" ++ styleReset ++ "\n" ++
    foreCyan ++ "|" ++ styleReset ++ "                                                              " ++
    foreCyan ++ "|" ++ styleReset ++ "\n" ++
    foreCyan ++ "|" ++ styleReset ++ "  " ++ foreGreen ++ "College:" ++ styleReset ++
    " SRM Institute of Science and Technology          " ++ foreCyan ++ "|" ++ styleReset ++ "\n" ++
    foreCyan ++ "|" ++ styleReset ++ "                                                              " ++
    foreCyan ++ "|" ++ styleReset ++ "\n" ++
    foreCyan ++ "|" ++ styleReset ++ "  " ++ foreGreen ++ "Course:" ++ styleReset ++
    "  B.Tech Computer Science Engineering with        " ++ foreCyan ++ "|" ++ styleReset ++ "\n" ++
    foreCyan ++ "|" ++ styleReset ++ "            specialization in Software Engineering              " ++
    foreCyan ++ "|" ++ styleReset ++ "\n" ++
    foreCyan ++ "|" ++ styleReset ++ "                                                              " ++
    foreCyan ++ "|" ++ styleReset ++ "\n" ++
    foreCyan ++ eqRow ++ styleReset ++ "\n\n" ++
    foreLightBlue ++ "Thank you for using PyTerminal!" ++ styleReset ++ "\n"

/-- Embeds `_handle_developer_info` from `terminal.py`. -/
def handleDevT : CmdResult := ⟨true, devTextT, ""⟩

/-- One numbered line of the `history` builtin's output. -/
def histLine (ie : Nat × HEntry) : String :=
  padLeft2 (toString (ie.1 + 1)) ++ ". " ++ (if ie.2.success then "✓" else "✗") ++ " " ++
    ie.2.command ++ "\n"

/-- Embeds `_handle_history` from `app.py` (shows the last 20 records). -/
def handleHistoryA (m : HistMap) (sid : String) : CmdResult :=
  match dictGet m sid with
  | none => ⟨true, "No commands in history", ""⟩
  | some [] => ⟨true, "No commands in history", ""⟩
  | some es =>
    ⟨true,
      "Command History:\n" ++ dashes 50 ++ "\n" ++
        String.join (((es.drop (es.length - 20)).enum).map histLine),
      ""⟩

/-- Failure modes of the external completion call, mirroring the
`openai.error` exception classes caught in `terminal.py` (with a payload
where the source interpolates `str(e)`). -/
inductive AiErr
  | auth
  | rate
  | apiConn
  | api (m : String)
  | badReq (m : String)
  | timedOut
  | net
  | other (m : String)
deriving DecidableEq

/-- The external completion service: for an instruction it yields the
response content, or one of the failure modes. -/
abbrev Oracle := String → Except AiErr String

/-- The subprocess path `_handle_external_command`, abstracted as an
oracle from the command line to its result triple. -/
abbrev ExtOracle := String → CmdResult

/-- Best-effort rendering of `str(e)` for the single generic handler of
`app.py` (the exact Python text is abstracted). -/
def aiErrTextA : AiErr → String
  | AiErr.auth => "Invalid API key"
  | AiErr.rate => "Rate limit exceeded"
  | AiErr.apiConn => "Unable to connect to OpenAI service"
  | AiErr.api m => m
  | AiErr.badReq m => m
  | AiErr.timedOut => "Request timed out"
  | AiErr.net => "Network connection failed"
  | AiErr.other m => m

/-- Embeds `interpret_natural_language` from `app.py`, returning the
`(success, command, explanation, error)` quadruple. -/
def interpretNLA (t : Oracle) (ai : Bool) (input : String) :
    Bool × String × String × String :=
  if !ai then
    (false, "", "", "AI features are disabled. Please set OPENAI_API_KEY environment variable.")
  else
    match t input with
    | Except.error e => (false, "", "", "AI Error: " ++ aiErrTextA e)
    | Except.ok raw =>
      let c := strTrim raw
      if c ≠ "" then
        (true, c, "AI converted: \x27" ++ input ++ "\x27 to terminal command", "")
      else (false, "", "", "AI could not generate a valid command.")

/-- The per-exception error text of `interpret_natural_language` in
`terminal.py`. -/
def aiErrTextT : AiErr → String
  | AiErr.auth =>
    foreRed ++ "AI Error: Invalid API key. Please check your OPENAI_API_KEY." ++ styleReset
  | AiErr.rate =>
    foreRed ++ "AI Error: Rate limit exceeded. Please try again in a moment." ++ styleReset
  | AiErr.apiConn =>
    foreRed ++ "AI Error: Unable to connect to OpenAI service. Check your internet connection." ++
      styleReset
  | AiErr.api m => foreRed ++ "AI Error: OpenAI API error - " ++ m ++ styleReset
  | AiErr.badReq m => foreRed ++ "AI Error: Invalid request - " ++ m ++ styleReset
  | AiErr.timedOut => foreRed ++ "AI Error: Request timed out. Please try again." ++ styleReset
  | AiErr.net =>
    foreRed ++ "AI Error: Network connection failed. Please check your internet connection." ++
      styleReset
  | AiErr.other m => foreRed ++ "AI Error: Unexpected error occurred - " ++ m ++ styleReset

/-- Embeds `interpret_natural_language` from `terminal.py`. -/
def interpretNLT (t : Oracle) (ai : Bool) (input : String) :
    Bool × String × String × String :=
  if !ai then
    (false, "", "",
      foreRed ++ "AI features are disabled. Please set OPENAI_API_KEY environment variable." ++
        styleReset)
  else
    match t input with
    | Except.error e => (false, "", "", aiErrTextT e)
    | Except.ok raw =>
      let c := strTrim raw
      if c ≠ "" then
        (true, c, "AI converted: \x27" ++ input ++ "\x27 to terminal command", "")
      else
        (false, "", "", foreRed ++ "AI could not generate a valid command." ++ styleReset)

/-- The reserved-word list consulted by the length-based AI check of
`run_command`, identical in both source files (note it lacks `history`). -/
def aiReserved : List String :=
  [("pwd"), ("ls"), ("cd"), ("mkdir"), ("rm"), ("cat"), ("cpu"), ("mem"), ("memory"),
    ("processes"), ("ps"), ("help"), ("tellmeabout_developer"), ("clear")]

/-- The fixed natural-language phrase list of `run_command`. -/
def phrases : List String :=
  [("show me"), ("list all"), ("create a"), ("what is"), ("how to"), ("can you")]

/-- Does the lower-cased raw line contain one of the fixed phrases? -/
def phraseHit (command : String) : Bool :=
  phrases.any (fun p => occursIn p.data (strLower command).data)

/-- Embeds `run_command` from `app.py`.  The recursion through
`_handle_ai_command` is made total with a fuel parameter: `none` means
the fuel ran out, i.e. the source would still be recursing. -/
def runCommandA (t : Oracle) (ext : ExtOracle) (ai : Bool) (sid : String) :
    Nat → Wld → String → Option (Wld × CmdResult)
  | 0, _, _ => none
  | fuel + 1, w, command =>
    let parts := pySplit command
    match parts with
    | [] => some (w, ⟨false, "", "Empty command"⟩)
    | p0 :: _ =>
      let cmd := strLower p0
      let args := parts.drop 1
      if (decide (2 < parts.length) && !aiReserved.contains cmd && ai)
          || (phraseHit command && ai) then
        match interpretNLA t ai command with
        | (false, _, _, err) => some (w, ⟨false, "", err⟩)
        | (true, c, _, _) =>
          if c ≠ "" then runCommandA t ext ai sid fuel w c
          else some (w, ⟨false, "", "AI could not generate a valid command."⟩)
      else if cmd = "pwd" then some (w, handlePwdA w)
      else if cmd = "ls" then some (w, handleLsA w args)
      else if cmd = "cd" then some (handleCdA w args)
      else if cmd = "mkdir" then some (handleMkdirA w args)
      else if cmd = "rm" then some (handleRmA w args)
      else if cmd = "cat" then some (w, handleCatA w args)
      else if cmd = "cpu" then some (w, handleCpuA w)
      else if cmd = "mem" || cmd = "memory" then some (w, handleMemoryA w)
      else if cmd = "processes" || cmd = "ps" then some (w, handleProcessesA w.procs)
      else if cmd = "help" then some (w, handleHelpA ai)
      else if cmd = "tellmeabout_developer" then some (w, handleDevA)
      else if cmd = "clear" then some (w, ⟨true, "CLEAR_SCREEN", ""⟩)
      else if cmd = "history" then some (w, handleHistoryA w.hist sid)
      else some (w, ext command)

/-- Embeds `_handle_ai_command` from `app.py`: translate, then re-submit
the produced command line to `run_command` itself. -/
def handleAiCommandA (t : Oracle) (ext : ExtOracle) (ai : Bool) (sid : String)
    (fuel : Nat) (w : Wld) (command : String) : Option (Wld × CmdResult) :=
  match interpretNLA t ai command with
  | (false, _, _, err) => some (w, ⟨false, "", err⟩)
  | (true, c, _, _) =>
    if c ≠ "" then runCommandA t ext ai sid fuel w c
    else some (w, ⟨false, "", "AI could not generate a valid command."⟩)

/-- Embeds `run_command` from `terminal.py`: same classifier, but the
dispatch table has no `clear` and no `history` branch (those words fall
through to the subprocess adapter when they reach `run_command`). -/
def runCommandT (t : Oracle) (ext : ExtOracle) (ai : Bool) :
    Nat → Wld → String → Option (Wld × CmdResult)
  | 0, _, _ => none
  | fuel + 1, w, command =>
    let parts := pySplit command
    match parts with
    | [] => some (w, ⟨false, "", "Empty command"⟩)
    | p0 :: _ =>
      let cmd := strLower p0
      let args := parts.drop 1
      if (decide (2 < parts.length) && !aiReserved.contains cmd && ai)
          || (phraseHit command && ai) then
        match interpretNLT t ai command with
        | (false, _, _, err) => some (w, ⟨false, "", err⟩)
        | (true, c, _, _) =>
          if c ≠ "" then runCommandT t ext ai fuel w c
          else
            some (w, ⟨false, "",
              foreRed ++ "AI could not generate a valid command." ++ styleReset⟩)
      else if cmd = "pwd" then some (w, handlePwdT w)
      else if cmd = "ls" then some (w, handleLsT w args)
      else if cmd = "cd" then some (handleCdT w args)
      else if cmd = "mkdir" then some (handleMkdirT w args)
      else if cmd = "rm" then some (handleRmT w args)
      else if cmd = "cat" then some (w, handleCatT w args)
      else if cmd = "cpu" then some (w, handleCpuT w)
      else if cmd = "mem" || cmd = "memory" then some (w, handleMemoryT w)
      else if cmd = "processes" || cmd = "ps" then some (w, handleProcessesT w.procs)
      else if cmd = "help" then some (w, handleHelpT ai)
      else if cmd = "tellmeabout_developer" then some (w, handleDevT)
      else some (w, ext command)

/-- Embeds `_handle_ai_command` from `terminal.py`. -/
def handleAiCommandT (t : Oracle) (ext : ExtOracle) (ai : Bool)
    (fuel : Nat) (w : Wld) (command : String) : Option (Wld × CmdResult) :=
  match interpretNLT t ai command with
  | (false, _, _, err) => some (w, ⟨false, "", err⟩)
  | (true, c, _, _) =>
    if c ≠ "" then runCommandT t ext ai fuel w c
    else
      some (w, ⟨false, "", foreRed ++ "AI could not generate a valid command." ++ styleReset⟩)

/-- The JSON body `execute_command` returns (fields of the several
`jsonify` calls, with absent fields defaulted). -/
structure WebResp where
  success : Bool
  output : String
  error : String
  exitFlag : Bool
  clearFlag : Bool
  currentDir : Option String
deriving DecidableEq

/-- Embeds the `/execute` route handler `execute_command` from `app.py`:
strip, special-case empty and exit words, run the dispatcher once, append
to the session history, then special-case the clear sentinel. -/
def executeCommandA (t : Oracle) (ext : ExtOracle) (ai : Bool) (sid : String)
    (fuel : Nat) (w : Wld) (raw : String) : Option (Wld × WebResp) :=
  let command := strTrim raw
  if command = "" then some (w, ⟨false, "", "Empty command", false, false, none⟩)
  else if [("exit"), ("quit"), ("q")].contains (strLower command) then
    some (w, ⟨true, "Goodbye!", "", true, false, none⟩)
  else
    match runCommandA t ext ai sid fuel w command with
    | none => none
    | some (w1, r) =>
      let w2 := {w1 with hist := addToHistory w1.hist sid ⟨w1.time, command, r.output, r.success⟩}
      if r.output = "CLEAR_SCREEN" then some (w2, ⟨true, "", "", false, true, none⟩)
      else some (w2, ⟨r.success, r.output, r.error, false, false, some (renderPath w2.cwd)⟩)

/-- The builtin registry of `app.py`'s dispatcher: exactly the command
words with a dispatch branch in `run_command` (spec §3, "Builtin Registry
Entry": a mapping from a command word to a handler). -/
def registryA : List String :=
  [("pwd"), ("ls"), ("cd"), ("mkdir"), ("rm"), ("cat"), ("cpu"), ("mem"), ("memory"),
    ("processes"), ("ps"), ("help"), ("tellmeabout_developer"), ("clear"), ("history")]

/-- The builtin registry of `terminal.py`'s dispatcher (no `clear`, no
`history` branch inside `run_command`). -/
def registryT : List String :=
  [("pwd"), ("ls"), ("cd"), ("mkdir"), ("rm"), ("cat"), ("cpu"), ("mem"), ("memory"),
    ("processes"), ("ps"), ("help"), ("tellmeabout_developer")]

/-- The dispatch table of `app.py`'s `run_command` restricted to registry
words, written out once for the statements below (the final arm is never
reached for a registry word). -/
def builtinStepA (ai : Bool) (sid : String) (cmd : String) (args : List String)
    (w : Wld) : Wld × CmdResult :=
  if cmd = "pwd" then (w, handlePwdA w)
  else if cmd = "ls" then (w, handleLsA w args)
  else if cmd = "cd" then handleCdA w args
  else if cmd = "mkdir" then handleMkdirA w args
  else if cmd = "rm" then handleRmA w args
  else if cmd = "cat" then (w, handleCatA w args)
  else if cmd = "cpu" then (w, handleCpuA w)
  else if cmd = "mem" || cmd = "memory" then (w, handleMemoryA w)
  else if cmd = "processes" || cmd = "ps" then (w, handleProcessesA w.procs)
  else if cmd = "help" then (w, handleHelpA ai)
  else if cmd = "tellmeabout_developer" then (w, handleDevA)
  else if cmd = "clear" then (w, ⟨true, "CLEAR_SCREEN", ""⟩)
  else if cmd = "history" then (w, handleHistoryA w.hist sid)
  else (w, ⟨false, "", ""⟩)

/-- The dispatch table of `terminal.py`'s `run_command` restricted to its
registry words. -/
def builtinStepT (ai : Bool) (cmd : String) (args : List String)
    (w : Wld) : Wld × CmdResult :=
  if cmd = "pwd" then (w, handlePwdT w)
  else if cmd = "ls" then (w, handleLsT w args)
  else if cmd = "cd" then handleCdT w args
  else if cmd = "mkdir" then handleMkdirT w args
  else if cmd = "rm" then handleRmT w args
  else if cmd = "cat" then (w, handleCatT w args)
  else if cmd = "cpu" then (w, handleCpuT w)
  else if cmd = "mem" || cmd = "memory" then (w, handleMemoryT w)
  else if cmd = "processes" || cmd = "ps" then (w, handleProcessesT w.procs)
  else if cmd = "help" then (w, handleHelpT ai)
  else if cmd = "tellmeabout_developer" then (w, handleDevT)
  else (w, ⟨false, "", ""⟩)

/-- The AI-routing condition of `run_command` (identical in both source
files) with the translator enabled: a non-empty token list, and either
more than two tokens with an unreserved first word, or a phrase hit. -/
def routesToAi (c : String) : Bool :=
  let parts := pySplit c
  !parts.isEmpty &&
    ((decide (2 < parts.length) && !aiReserved.contains (strLower (parts.headD ("")))) ||
      phraseHit c)

/-- A fresh baseline world used by the concrete checks below. -/
def wBase : Wld :=
  { fs := [], cwd := [], home := [("home"), ("user")], cpu := 0, memPercent := 0,
    memTotal := 0, memAvail := 0, memUsed := 0, procs := [], hist := [], time := 0 }

lemma dictGet_dictSet (m : HistMap) (sid : String) (v : List HEntry) :
    dictGet (dictSet m sid v) sid = some v := by
  induction m with
  | nil => simp [dictSet, dictGet]
  | cons kv rest ih =>
    obtain ⟨k, v0⟩ := kv
    by_cases h : k = sid
    · simp [dictSet, dictGet, h]
    · simp [dictSet, dictGet, h, ih]

lemma addToHistory_get (m : HistMap) (sid : String) (e : HEntry) :
    getHistoryRoute (addToHistory m sid e) sid = getHistoryRoute m sid ++ [e] := by
  simp [addToHistory, getHistoryRoute, dictGet_dictSet]

lemma concat_getLast (l : List HEntry) (e : HEntry) : (l ++ [e]).getLast? = some e := by
  induction l with
  | nil => rfl
  | cons a as ih =>
    cases as with
    | nil => rfl
    | cons b bs => simpa [List.getLast?_cons_cons] using ih

/-- C8: appending a dispatch's history record for a session and then
immediately retrieving that session's history yields the old sequence
with the new record appended at the end (most-recent-last), so the last
element is exactly the record just appended. -/
theorem history_roundtrip_most_recent_last (m : HistMap) (sid : String) (e : HEntry) :
    getHistoryRoute (addToHistory m sid e) sid = getHistoryRoute m sid ++ [e] ∧
    (getHistoryRoute (addToHistory m sid e) sid).getLast? = some e := by
  refine ⟨addToHistory_get m sid e, ?_⟩
  rw [addToHistory_get]
  exact concat_getLast _ _

instance : IsTotal (Nat × String) (fun a b => a.1 ≤ b.1) :=
  ⟨fun a b => Nat.le_total a.1 b.1⟩

instance : IsTrans (Nat × String) (fun a b => a.1 ≤ b.1) :=
  ⟨fun _ _ _ h1 h2 => Nat.le_trans h1 h2⟩

/-- C7: the process listing always succeeds, keeps exactly the accessible
processes (skipping, not failing on, the inaccessible ones), prints the
first 20 of a pid-ascending sorted permutation of them, reports the
length of the full enumeration (inaccessible processes included) as the
total, and appends the "... and N more" note exactly when that total
exceeds 20, with N the excess over 20. -/
theorem processes_listing_spec (ps : List PInfo) :
    (handleProcessesA ps).success = true ∧
    (handleProcessesT ps).success = true ∧
    List.Perm (pidSort (accPairs ps)) (accPairs ps) ∧
    List.Sorted (fun a b => a.1 ≤ b.1) (pidSort (accPairs ps)) ∧
    accPairs ps = (ps.filter (fun p => p.ok)).map (fun p => (p.pid, p.name)) ∧
    (handleProcessesA ps).output =
      "Total Processes: " ++ toString ps.length ++ "\n" ++ "Showing top 20:\n" ++
        "PID     Name\n" ++ dashes 30 ++ "\n" ++
        String.join (((pidSort (accPairs ps)).take 20).map procLine) ++
        (if 20 < ps.length then
          "... and " ++ toString (ps.length - 20) ++ " more processes" else "") ∧
    (handleProcessesT ps).output =
      "Total Processes: " ++ toString ps.length ++ "\n" ++ "Showing top 20:\n" ++
        "PID     Name\n" ++ dashes 30 ++ "\n" ++
        String.join (((pidSort (accPairs ps)).take 20).map procLine) ++
        (if 20 < ps.length then
          "... and " ++ toString (ps.length - 20) ++ " more processes\n" else "") :=
  ⟨rfl, rfl, List.perm_insertionSort _ _, List.sorted_insertionSort _ _, rfl, rfl, rfl⟩

lemma fsLookup_filter_self (fs : Fs) (p : List String) :
    fsLookup (fs.filter (fun qe => !decide (qe.1 = p))) p = none := by
  induction fs with
  | nil => rfl
  | cons qe rest ih =>
    obtain ⟨q, e⟩ := qe
    by_cases h : q = p
    · simp [List.filter_cons, h, ih]
    · simp [List.filter_cons, h, fsLookup, ih]

lemma fsLookup_filter_other (fs : Fs) {p q : List String} (h : q ≠ p) :
    fsLookup (fs.filter (fun qe => !decide (qe.1 = p))) q = fsLookup fs q := by
  induction fs with
  | nil => rfl
  | cons qe rest ih =>
    obtain ⟨q0, e⟩ := qe
    by_cases h0 : q0 = p
    · subst h0
      simp [List.filter_cons, fsLookup, Ne.symm h, ih]
    · by_cases h1 : q0 = q
      · subst h1
        simp [List.filter_cons, fsLookup, h0]
      · simp [List.filter_cons, fsLookup, h0, h1, ih]

/-- C9: every path-taking builtin (list, change-directory, make-directory,
remove, read) acts on its first argument only: supplying extra arguments
changes nothing, and in particular remove-file with two existing file
names deletes only the first, reports success, and leaves the second in
place. -/
theorem path_builtins_use_first_argument (w : Wld) (a b : String) (rest : List String) :
    handleLsA w (a :: b :: rest) = handleLsA w [a] ∧
    handleCdA w (a :: b :: rest) = handleCdA w [a] ∧
    handleMkdirA w (a :: b :: rest) = handleMkdirA w [a] ∧
    handleRmA w (a :: b :: rest) = handleRmA w [a] ∧
    handleCatA w (a :: b :: rest) = handleCatA w [a] ∧
    handleLsT w (a :: b :: rest) = handleLsT w [a] ∧
    handleCdT w (a :: b :: rest) = handleCdT w [a] ∧
    handleMkdirT w (a :: b :: rest) = handleMkdirT w [a] ∧
    handleRmT w (a :: b :: rest) = handleRmT w [a] ∧
    handleCatT w (a :: b :: rest) = handleCatT w [a] ∧
    (fsIsDir w.fs (resolvePath w.cwd a) = false →
      fsIsFile w.fs (resolvePath w.cwd a) = true →
      fsIsFile w.fs (resolvePath w.cwd b) = true →
      resolvePath w.cwd b ≠ resolvePath w.cwd a →
      (handleRmA w (a :: b :: rest)).2.success = true ∧
      fsIsFile (handleRmA w (a :: b :: rest)).1.fs (resolvePath w.cwd a) = false ∧
      fsIsFile (handleRmA w (a :: b :: rest)).1.fs (resolvePath w.cwd b) = true) := by
  refine ⟨rfl, rfl, rfl, rfl, rfl, rfl, rfl, rfl, rfl, rfl, ?_⟩
  intro hd hfa hfb hne
  have hfb1 := hfb
  simp only [fsIsFile] at hfb1
  have hfa1 := hfa
  simp only [fsIsFile] at hfa1
  refine ⟨?_, ?_, ?_⟩
  · simp [handleRmA, hd, hfa]
  · simp [handleRmA, hd, fsIsFile, hfa1, fsLookup_filter_self]
  · simp [handleRmA, hd, fsIsFile, hfa1, fsLookup_filter_other _ hne, hfb1]

/-- A world whose filesystem has the directory `demo` at the root. -/
def wDemoDir : Wld := { wBase with fs := [([("demo")], FsEntry.dir)] }

/-- A world whose filesystem has a plain file `demo` at the root. -/
def wDemoFile : Wld := { wBase with fs := [([("demo")], FsEntry.file (""))] }

/-- C1 counterexample: when the make-directory target already exists, the
handler does fail, but its error message is one and the same whether the
existing target is a directory or a file — the two cases are not
distinguished. -/
theorem mkdir_exists_message_not_distinguished :
    fsIsDir wDemoDir.fs (resolvePath wDemoDir.cwd ("demo")) = true ∧
    fsIsFile wDemoFile.fs (resolvePath wDemoFile.cwd ("demo")) = true ∧
    (handleMkdirA wDemoDir [("demo")]).2.success = false ∧
    (handleMkdirA wDemoFile [("demo")]).2.success = false ∧
    (handleMkdirA wDemoDir [("demo")]).2.error = (handleMkdirA wDemoFile [("demo")]).2.error ∧
    (handleMkdirT wDemoDir [("demo")]).2.error = (handleMkdirT wDemoFile [("demo")]).2.error := by
  decide

/-- C1 (amended): when the make-directory target already exists (as a
directory or as a file), the handler returns succeeded=false — it never
silently succeeds — but with the single message "File exists" in both
cases, without distinguishing directory from file. -/
theorem mkdir_exists_fails_uniform_message (w : Wld) (d : String) (rest : List String)
    (h : fsExists w.fs (resolvePath w.cwd d) = true) :
    handleMkdirA w (d :: rest) =
      (w, ⟨false, "", "mkdir: cannot create directory \x27" ++ d ++ "\x27: File exists"⟩) ∧
    handleMkdirT w (d :: rest) =
      (w, ⟨false, "", "mkdir: cannot create directory \x27" ++ d ++ "\x27: File exists"⟩) := by
  constructor <;> simp [handleMkdirA, handleMkdirT, makedirs, h]

/-- Concrete check for the amended C1 statement, at an existing directory
and at an existing file. -/
theorem mkdir_exists_fails_uniform_message_check :
    (handleMkdirA wDemoDir [("demo")] =
      (wDemoDir, ⟨false, "", "mkdir: cannot create directory \x27" ++ ("demo") ++ "\x27: File exists"⟩) ∧
      handleMkdirT wDemoDir [("demo")] =
      (wDemoDir, ⟨false, "", "mkdir: cannot create directory \x27" ++ ("demo") ++ "\x27: File exists"⟩)) ∧
    (handleMkdirA wDemoFile [("demo")] =
      (wDemoFile, ⟨false, "", "mkdir: cannot create directory \x27" ++ ("demo") ++ "\x27: File exists"⟩) ∧
      handleMkdirT wDemoFile [("demo")] =
      (wDemoFile, ⟨false, "", "mkdir: cannot create directory \x27" ++ ("demo") ++ "\x27: File exists"⟩)) :=
  ⟨mkdir_exists_fails_uniform_message wDemoDir ("demo") [] (by decide),
    mkdir_exists_fails_uniform_message wDemoFile ("demo") [] (by decide)⟩

lemma fsLookup_append_none {fs1 : Fs} (fs2 : Fs) {p : List String}
    (h : fsLookup fs1 p = none) : fsLookup (fs1 ++ fs2) p = fsLookup fs2 p := by
  induction fs1 with
  | nil => rfl
  | cons qe rest ih =>
    obtain ⟨q, e⟩ := qe
    by_cases hq : q = p
    · simp [fsLookup, hq] at h
    · simp only [fsLookup, hq, if_false, List.cons_append] at h ⊢
      exact ih h

lemma fsLookup_append_some {fs1 : Fs} (fs2 : Fs) {p : List String} {e : FsEntry}
    (h : fsLookup fs1 p = some e) : fsLookup (fs1 ++ fs2) p = some e := by
  induction fs1 with
  | nil => simp [fsLookup] at h
  | cons qe rest ih =>
    obtain ⟨q, e0⟩ := qe
    by_cases hq : q = p
    · simp only [fsLookup, hq, if_true, if_pos] at h ⊢
      simpa [fsLookup, hq] using h
    · simp only [fsLookup, hq, if_false, List.cons_append] at h ⊢
      exact ih h

lemma fsLookup_mapDir (l : List (List String)) (p : List String) :
    fsLookup (l.map (fun q => (q, FsEntry.dir))) p =
      if p ∈ l then some FsEntry.dir else none := by
  induction l with
  | nil => simp [fsLookup]
  | cons q rest ih =>
    by_cases h : q = p
    · simp [fsLookup, h]
    · simp [fsLookup, h, ih, Ne.symm h]

lemma mem_initSegs {p q : List String} :
    q ∈ initSegs p ↔ ∃ i, i < p.length ∧ q = p.take (i + 1) := by
  simp only [initSegs, List.mem_map, List.mem_range]
  constructor
  · rintro ⟨i, hi, rfl⟩
    exact ⟨i, hi, rfl⟩
  · rintro ⟨i, hi, rfl⟩
    exact ⟨i, hi, rfl⟩

/-- Every leading segment of the target is a directory after `makedirs`
has added the missing ones, provided no leading segment was a file and
the target itself was absent. -/
lemma mkdirAdds_isDir {fs : Fs} {p : List String} (hnf : ancFile fs p = false)
    (hne : fsExists fs p = false) {i : Nat} (hi : i < p.length) :
    fsIsDir (mkdirAdds fs p ++ fs) (p.take (i + 1)) = true := by
  have hq_mem : p.take (i + 1) ∈ initSegs p := mem_initSegs.mpr ⟨i, hi, rfl⟩
  by_cases hex : fsExists fs (p.take (i + 1)) = true
  · -- the segment already existed; it cannot be a file, so it is a directory
    have hfile : fsIsFile fs (p.take (i + 1)) = false := by
      rcases Nat.lt_or_ge (i + 1) p.length with hlt | hge
      · by_contra hf
        have hf1 : fsIsFile fs (p.take (i + 1)) = true := by
          revert hf
          cases fsIsFile fs (p.take (i + 1)) <;> simp
        have : ancFile fs p = true := by
          simp only [ancFile, List.any_eq_true]
          exact ⟨i + 1, by simpa [List.mem_range] using hlt, hf1⟩
        simp [this] at hnf
      · have hq : p.take (i + 1) = p := List.take_of_length_le hge
        rw [hq] at hex
        simp [hex] at hne
    have hdir : fsIsDir fs (p.take (i + 1)) = true := by
      have := hex
      simp only [fsExists, Bool.or_eq_true] at this
      rcases this with h | h
      · exact h
      · simp [h] at hfile
    -- the adds list skips this segment entirely
    have hnotin : p.take (i + 1) ∉ ((initSegs p).filter (fun q => !fsExists fs q)) := by
      intro hmem
      rcases List.mem_filter.mp hmem with ⟨_, hcond⟩
      simp [hex] at hcond
    have hlook : fsLookup (mkdirAdds fs p) (p.take (i + 1)) = none := by
      rw [mkdirAdds, fsLookup_mapDir]
      simp [hnotin]
    simp only [fsIsDir, Bool.or_eq_true] at hdir ⊢
    rcases hdir with h | h
    · exact Or.inl h
    · refine Or.inr ?_
      rw [fsLookup_append_none fs hlook]
      exact h
  · -- the segment was absent: the adds list contains it as a directory
    have hexf : fsExists fs (p.take (i + 1)) = false := by
      revert hex
      cases fsExists fs (p.take (i + 1)) <;> simp
    have hin : p.take (i + 1) ∈ ((initSegs p).filter (fun q => !fsExists fs q)) :=
      List.mem_filter.mpr ⟨hq_mem, by simp [hexf]⟩
    have hlook : fsLookup (mkdirAdds fs p) (p.take (i + 1)) = some FsEntry.dir := by
      rw [mkdirAdds, fsLookup_mapDir]
      simp [hin]
    simp only [fsIsDir, Bool.or_eq_true]
    refine Or.inr ?_
    rw [fsLookup_append_some fs hlook]

/-- C10: when the make-directory target is absent and no leading segment
is a file, a single invocation succeeds and creates the leaf directory
together with every missing ancestor: afterwards every leading segment of
the resolved path is a directory. -/
theorem mkdir_creates_missing_ancestors (w : Wld) (d : String) (rest : List String)
    (hne : fsExists w.fs (resolvePath w.cwd d) = false)
    (hnf : ancFile w.fs (resolvePath w.cwd d) = false) :
    handleMkdirA w (d :: rest) =
      ({w with fs := mkdirAdds w.fs (resolvePath w.cwd d) ++ w.fs},
        ⟨true, "Created directory: " ++ d, ""⟩) ∧
    handleMkdirT w (d :: rest) =
      ({w with fs := mkdirAdds w.fs (resolvePath w.cwd d) ++ w.fs},
        ⟨true, foreGreen ++ "Created directory: " ++ d ++ styleReset ++ "\n", ""⟩) ∧
    (∀ i, i < (resolvePath w.cwd d).length →
      fsIsDir (mkdirAdds w.fs (resolvePath w.cwd d) ++ w.fs)
        ((resolvePath w.cwd d).take (i + 1)) = true) := by
  refine ⟨?_, ?_, fun i hi => mkdirAdds_isDir hnf hne hi⟩ <;>
    simp [handleMkdirA, handleMkdirT, makedirs, hne, hnf]

/-- Concrete check for C10: `mkdir a/b/c` on an empty filesystem creates
`a`, `a/b` and `a/b/c`, all directories, and reports success. -/
theorem mkdir_creates_missing_ancestors_check :
    handleMkdirA wBase [("a/b/c")] =
      ({wBase with fs := mkdirAdds wBase.fs (resolvePath wBase.cwd ("a/b/c")) ++ wBase.fs},
        ⟨true, "Created directory: " ++ ("a/b/c"), ""⟩) ∧
    fsIsDir (mkdirAdds wBase.fs (resolvePath wBase.cwd ("a/b/c")) ++ wBase.fs)
      ((resolvePath wBase.cwd ("a/b/c")).take 1) = true ∧
    fsIsDir (mkdirAdds wBase.fs (resolvePath wBase.cwd ("a/b/c")) ++ wBase.fs)
      ((resolvePath wBase.cwd ("a/b/c")).take 2) = true ∧
    fsIsDir (mkdirAdds wBase.fs (resolvePath wBase.cwd ("a/b/c")) ++ wBase.fs)
      ((resolvePath wBase.cwd ("a/b/c")).take 3) = true :=
  ⟨(mkdir_creates_missing_ancestors wBase ("a/b/c") [] (by decide) (by decide)).1,
    (mkdir_creates_missing_ancestors wBase ("a/b/c") [] (by decide) (by decide)).2.2 0 (by decide),
    (mkdir_creates_missing_ancestors wBase ("a/b/c") [] (by decide) (by decide)).2.2 1 (by decide),
    (mkdir_creates_missing_ancestors wBase ("a/b/c") [] (by decide) (by decide)).2.2 2 (by decide)⟩

/-- A world inside directory `/a`. -/
def wA : Wld := { wBase with fs := [([("a")], FsEntry.dir)], cwd := [("a")] }

/-- A world whose filesystem contains the home directory `/home/user`. -/
def wHome : Wld :=
  { wBase with fs := [([("home")], FsEntry.dir), ([("home"), ("user")], FsEntry.dir)] }

lemma resolve_dotdot (cwd : List String) : resolvePath cwd ("..") = cwd.dropLast := rfl

/-- C3 counterexample: the CLI variant's change-directory handler succeeds
silently — its returned output is empty and does not report the new
absolute current directory (here `/a`). -/
theorem cd_terminal_silent_success :
    (handleCdT wA [(".")]).2.success = true ∧
    (handleCdT wA [(".")]).2.output = "" ∧
    renderPath (handleCdT wA [(".")]).1.cwd = "/a" := by
  decide

/-- C3 (amended): both change-directory handlers require a path argument
(usage error when missing), treat `.` as a no-op and `..` as
move-to-parent, and expand a leading `~` to the caller's home directory
before the OS directory change; on success the web handler's output
reports the new absolute current directory, while the CLI handler returns
empty output (the prompt, outside the handler, shows the directory). -/
theorem cd_behavior_amended :
    (∀ w : Wld,
      handleCdA w [] =
        (w, ⟨false, "", "cd: missing directory argument. Usage: cd <directory>"⟩) ∧
      handleCdT w [] =
        (w, ⟨false, "", "cd: missing directory argument. Usage: cd <directory>"⟩)) ∧
    (∀ (w : Wld) (rest : List String),
      handleCdA w ((".") :: rest) = (w, ⟨true, "Changed to: " ++ renderPath w.cwd, ""⟩) ∧
      handleCdT w ((".") :: rest) = (w, ⟨true, "", ""⟩)) ∧
    (∀ (w : Wld) (rest : List String), fsIsDir w.fs w.cwd.dropLast = true →
      handleCdA w (("..") :: rest) =
        ({w with cwd := w.cwd.dropLast},
          ⟨true, "Changed to: " ++ renderPath w.cwd.dropLast, ""⟩) ∧
      handleCdT w (("..") :: rest) = ({w with cwd := w.cwd.dropLast}, ⟨true, "", ""⟩)) ∧
    (∀ (w : Wld) (s : String) (rest : List String), strStartsWith s ("~") = true →
      fsIsDir w.fs (resolvePath w.cwd (expandUser w.home s)) = true →
      handleCdA w (s :: rest) =
        ({w with cwd := resolvePath w.cwd (expandUser w.home s)},
          ⟨true, "Changed to: " ++ renderPath (resolvePath w.cwd (expandUser w.home s)), ""⟩) ∧
      handleCdT w (s :: rest) =
        ({w with cwd := resolvePath w.cwd (expandUser w.home s)}, ⟨true, "", ""⟩)) := by
  refine ⟨fun w => ⟨rfl, rfl⟩, fun w rest => ?_, fun w rest h => ?_,
    fun w s rest hs h => ?_⟩
  · constructor <;> simp [handleCdA, handleCdT, cdCore]
  · constructor <;> simp [handleCdA, handleCdT, cdCore, chdirW, resolve_dotdot, h]
  · have h1 : s ≠ ("..") := by rintro rfl; exact absurd hs (by decide)
    have h2 : s ≠ (".") := by rintro rfl; exact absurd hs (by decide)
    constructor <;> simp [handleCdA, handleCdT, cdCore, chdirW, h1, h2, hs, h]

/-- Concrete check for the amended C3 statement: missing-argument error,
`.` no-op with reporting, `..` to the parent, and `~` into the home
directory. -/
theorem cd_behavior_amended_check :
    (handleCdA wBase [] =
      (wBase, ⟨false, "", "cd: missing directory argument. Usage: cd <directory>"⟩)) ∧
    (handleCdA wA [(".")] = (wA, ⟨true, "Changed to: " ++ renderPath wA.cwd, ""⟩)) ∧
    (handleCdA wA [("..")] =
      ({wA with cwd := wA.cwd.dropLast},
        ⟨true, "Changed to: " ++ renderPath wA.cwd.dropLast, ""⟩)) ∧
    (handleCdT wHome [("~")] =
      ({wHome with cwd := resolvePath wHome.cwd (expandUser wHome.home ("~"))},
        ⟨true, "", ""⟩)) :=
  ⟨(cd_behavior_amended.1 wBase).1,
    (cd_behavior_amended.2.1 wA []).1,
    (cd_behavior_amended.2.2.1 wA [] (by decide)).1,
    (cd_behavior_amended.2.2.2 wHome ("~") [] (by decide) (by decide)).2⟩

lemma splitWsAux_ne_nil (l : List Char) (acc : List Char) (h : acc ≠ []) :
    splitWsAux l acc ≠ [] := by
  induction l generalizing acc with
  | nil =>
    cases acc with
    | nil => exact absurd rfl h
    | cons a as => simp [splitWsAux]
  | cons c cs ih =>
    cases acc with
    | nil => exact absurd rfl h
    | cons a as =>
      simp only [splitWsAux]
      by_cases hw : isWs c
      · simp [hw]
      · simp only [hw, Bool.false_eq_true, if_false]
        exact ih (c :: a :: as) (by simp)

lemma splitWsAux_nil_all_ws (l : List Char) (h : splitWsAux l [] = []) :
    ∀ ch ∈ l, isWs ch = true := by
  induction l with
  | nil => simp
  | cons c cs ih =>
    simp only [splitWsAux, List.isEmpty_nil, if_true] at h
    by_cases hw : isWs c
    · simp only [hw, if_true] at h
      intro ch hch
      rcases List.mem_cons.mp hch with rfl | hch
      · exact hw
      · exact ih h ch hch
    · simp only [hw, Bool.false_eq_true, if_false] at h
      exact absurd h (splitWsAux_ne_nil cs [c] (by simp))

lemma occursIn_head_mem {c0 : Char} {pat l : List Char}
    (h : occursIn (c0 :: pat) l = true) : c0 ∈ l := by
  induction l with
  | nil => simp [occursIn, leadMatch] at h
  | cons c cs ih =>
    simp only [occursIn, Bool.or_eq_true] at h
    rcases h with h | h
    · simp only [leadMatch, Bool.and_eq_true, decide_eq_true_eq] at h
      exact h.1 ▸ List.mem_cons_self c cs
    · exact List.mem_cons_of_mem _ (ih h)

lemma isWs_toLower {ch : Char} (h : isWs ch = true) : Char.toLower ch = ch := by
  simp only [isWs, Bool.or_eq_true, decide_eq_true_eq] at h
  rcases h with ((h | h) | h) | h <;> subst h <;> decide

lemma head_occurs_split_ne (c0 : Char) (rest : List Char) (c : String)
    (hws : isWs c0 = false) (hocc : occursIn (c0 :: rest) (strLower c).data = true) :
    pySplit c ≠ [] := by
  intro hnil
  have hall : ∀ ch ∈ c.data, isWs ch = true := splitWsAux_nil_all_ws c.data hnil
  have hmem : c0 ∈ (strLower c).data := occursIn_head_mem hocc
  have hmem2 : ∃ ch ∈ c.data, Char.toLower ch = c0 := by
    simpa [strLower] using hmem
  obtain ⟨ch, hch, hlow⟩ := hmem2
  have hw := hall ch hch
  rw [isWs_toLower hw] at hlow
  rw [hlow] at hw
  simp [hw] at hws

lemma phraseHit_split_ne {c : String} (h : phraseHit c = true) : pySplit c ≠ [] := by
  simp only [phraseHit, List.any_eq_true] at h
  obtain ⟨p, hp, hocc⟩ := h
  fin_cases hp <;> exact head_occurs_split_ne _ _ c (by decide) hocc

/-- C5: whenever the lower-cased input line contains one of the fixed
natural-language phrases and the translator is enabled, both dispatchers
route the line to the natural-language handler — independently of the
line's token count and of whether its first token is a reserved builtin
word (the hypothesis constrains neither). -/
theorem phrase_routes_to_translator (t : Oracle) (ext : ExtOracle) (sid : String)
    (w : Wld) (c : String) (fuel : Nat) (h : phraseHit c = true) :
    runCommandA t ext true sid (fuel + 1) w c = handleAiCommandA t ext true sid fuel w c ∧
    runCommandT t ext true (fuel + 1) w c = handleAiCommandT t ext true fuel w c := by
  have hne := phraseHit_split_ne h
  obtain ⟨p0, rest, hps⟩ : ∃ p0 rest, pySplit c = p0 :: rest := by
    cases hx : pySplit c with
    | nil => exact absurd hx hne
    | cons p0 rest => exact ⟨p0, rest, rfl⟩
  constructor
  · simp only [runCommandA, hps, h, Bool.and_true, Bool.or_true, if_true,
      handleAiCommandA]
  · simp only [runCommandT, hps, h, Bool.and_true, Bool.or_true, if_true,
      handleAiCommandT]

/-- Concrete check for C5: a phrase-bearing line whose first token is the
reserved word `cat` and which has four tokens is still routed to the
translator in both variants. -/
theorem phrase_routes_to_translator_check :
    runCommandA (fun _ => Except.ok ("ls")) (fun _ => ⟨false, "", ""⟩) true ("s") 3 wBase
        ("cat what is this") =
      handleAiCommandA (fun _ => Except.ok ("ls")) (fun _ => ⟨false, "", ""⟩) true ("s") 2 wBase
        ("cat what is this") ∧
    runCommandT (fun _ => Except.ok ("ls")) (fun _ => ⟨false, "", ""⟩) true 3 wBase
        ("cat what is this") =
      handleAiCommandT (fun _ => Except.ok ("ls")) (fun _ => ⟨false, "", ""⟩) true 2 wBase
        ("cat what is this") :=
  phrase_routes_to_translator (fun _ => Except.ok ("ls")) (fun _ => ⟨false, "", ""⟩) ("s")
    wBase ("cat what is this") 2 (by decide)

/-- An always-failing translator oracle, used in concrete checks. -/
def tNone : Oracle := fun _ => Except.error (AiErr.other (("offline")))

/-- An external-adapter stub, used in concrete checks. -/
def extNone : ExtOracle := fun _ => ⟨false, "", ("not run")⟩

/-- C6: an input of at most two tokens whose lower-cased first token is in
the dispatcher's builtin registry and whose lower-cased text matches no
natural-language phrase is handled by the matching builtin handler alone:
for every translator oracle, external oracle and translator-enabled flag,
the dispatch equals the registry table entry — a term that consults
neither oracle. -/
theorem builtin_short_input_stays_builtin (t : Oracle) (ext : ExtOracle) (ai : Bool)
    (sid : String) (w : Wld) (c : String) (fuel : Nat)
    (hlen : (pySplit c).length ≤ 2) (hph : phraseHit c = false) :
    (strLower ((pySplit c).headD ("")) ∈ registryA →
      runCommandA t ext ai sid (fuel + 1) w c =
        some (builtinStepA ai sid (strLower ((pySplit c).headD (""))) ((pySplit c).drop 1) w)) ∧
    (strLower ((pySplit c).headD ("")) ∈ registryT →
      runCommandT t ext ai (fuel + 1) w c =
        some (builtinStepT ai (strLower ((pySplit c).headD (""))) ((pySplit c).drop 1) w)) := by
  cases hps : pySplit c with
  | nil =>
    refine ⟨fun hmem => ?_, fun hmem => ?_⟩ <;> exact absurd hmem (by decide)
  | cons p0 rest =>
    rw [hps] at hlen
    have hlt : decide (2 < (p0 :: rest).length) = false :=
      decide_eq_false (Nat.not_lt.mpr hlen)
    constructor
    · intro hmem
      have hlen2 : rest.length + 1 ≤ 2 := by simpa using hlen
      have hm : strLower p0 ∈ registryA := by simpa using hmem
      simp only [registryA, List.mem_cons, List.not_mem_nil, or_false] at hm
      rcases hm with h|h|h|h|h|h|h|h|h|h|h|h|h|h|h <;>
        simp [runCommandA, hps, hlt, hph, h, builtinStepA] <;>
        exact fun h1 => absurd h1 (by omega)
    · intro hmem
      have hlen2 : rest.length + 1 ≤ 2 := by simpa using hlen
      have hm : strLower p0 ∈ registryT := by simpa using hmem
      simp only [registryT, List.mem_cons, List.not_mem_nil, or_false] at hm
      rcases hm with h|h|h|h|h|h|h|h|h|h|h|h|h <;>
        simp [runCommandT, hps, hlt, hph, h, builtinStepT] <;>
        exact fun h1 => absurd h1 (by omega)

/-- Concrete check for C6: the two-token line `ls /tmp` with the
translator enabled, and the one-token line `pwd` with it disabled, are
dispatched to the registry table in both variants. -/
theorem builtin_short_input_stays_builtin_check :
    (runCommandA tNone extNone true ("s") (0 + 1) wBase ("ls /tmp") =
      some (builtinStepA true ("s") (strLower ((pySplit ("ls /tmp")).headD ("")))
        ((pySplit ("ls /tmp")).drop 1) wBase) ∧
      runCommandT tNone extNone true (0 + 1) wBase ("ls /tmp") =
      some (builtinStepT true (strLower ((pySplit ("ls /tmp")).headD ("")))
        ((pySplit ("ls /tmp")).drop 1) wBase)) ∧
    (runCommandA tNone extNone false ("s") (0 + 1) wBase ("pwd") =
      some (builtinStepA false ("s") (strLower ((pySplit ("pwd")).headD ("")))
        ((pySplit ("pwd")).drop 1) wBase) ∧
      runCommandT tNone extNone false (0 + 1) wBase ("pwd") =
      some (builtinStepT false (strLower ((pySplit ("pwd")).headD ("")))
        ((pySplit ("pwd")).drop 1) wBase)) :=
  ⟨⟨(builtin_short_input_stays_builtin tNone extNone true ("s") wBase ("ls /tmp") 0
        (by decide) (by decide)).1 (by decide),
      (builtin_short_input_stays_builtin tNone extNone true ("s") wBase ("ls /tmp") 0
        (by decide) (by decide)).2 (by decide)⟩,
    ⟨(builtin_short_input_stays_builtin tNone extNone false ("s") wBase ("pwd") 0
        (by decide) (by decide)).1 (by decide),
      (builtin_short_input_stays_builtin tNone extNone false ("s") wBase ("pwd") 0
        (by decide) (by decide)).2 (by decide)⟩⟩

/-- A translator oracle that echoes a phrase-matching line. -/
def tEcho : Oracle := fun _ => Except.ok ("show me stuff")

/-- A translator oracle that returns the plain command `ls`. -/
def tPlain : Oracle := fun _ => Except.ok ("ls")

/-- C2 counterexample: with a translator whose output again matches a
natural-language phrase, dispatch re-enters itself past any bounded
depth — at fuel 10 (which would complete any run with at most one
recursive re-entry) both dispatchers are still recursing, so the
self-dispatch is not depth-limited and need not terminate. -/
theorem ai_redispatch_unbounded_on_phrase_echo :
    runCommandA tEcho extNone true ("s") 10 wBase ("show me the files") = none ∧
    runCommandT tEcho extNone true 10 wBase ("show me the files") = none := by
  decide

lemma runA_ai_route (t : Oracle) (ext : ExtOracle) (sid : String) (w : Wld) (c : String)
    (fuel : Nat) (h : routesToAi c = true) :
    runCommandA t ext true sid (fuel + 1) w c = handleAiCommandA t ext true sid fuel w c := by
  obtain ⟨p0, rest, hps⟩ : ∃ p0 rest, pySplit c = p0 :: rest := by
    cases hx : pySplit c with
    | nil => simp [routesToAi, hx] at h
    | cons p0 rest => exact ⟨p0, rest, rfl⟩
  have hcond :
      (decide (2 < (p0 :: rest).length) && !aiReserved.contains (strLower p0) ||
        phraseHit c) = true := by
    simpa [routesToAi, hps] using h
  simp only [runCommandA, hps, handleAiCommandA, Bool.and_true]
  rw [hcond]
  simp

lemma runT_ai_route (t : Oracle) (ext : ExtOracle) (w : Wld) (c : String)
    (fuel : Nat) (h : routesToAi c = true) :
    runCommandT t ext true (fuel + 1) w c = handleAiCommandT t ext true fuel w c := by
  obtain ⟨p0, rest, hps⟩ : ∃ p0 rest, pySplit c = p0 :: rest := by
    cases hx : pySplit c with
    | nil => simp [routesToAi, hx] at h
    | cons p0 rest => exact ⟨p0, rest, rfl⟩
  have hcond :
      (decide (2 < (p0 :: rest).length) && !aiReserved.contains (strLower p0) ||
        phraseHit c) = true := by
    simpa [routesToAi, hps] using h
  simp only [runCommandT, hps, handleAiCommandT, Bool.and_true]
  rw [hcond]
  simp

lemma runA_no_ai_oracle_free (t t' : Oracle) (ext : ExtOracle) (sid : String) (w : Wld)
    (c : String) (fuel : Nat) (h : routesToAi c = false) :
    runCommandA t ext true sid (fuel + 1) w c = runCommandA t' ext true sid (fuel + 1) w c := by
  cases hps : pySplit c with
  | nil => simp [runCommandA, hps]
  | cons p0 rest =>
    have hcond :
        (decide (2 < (p0 :: rest).length) && !aiReserved.contains (strLower p0) ||
          phraseHit c) = false := by
      simpa [routesToAi, hps] using h
    simp only [runCommandA, hps, Bool.and_true]
    rw [hcond]
    simp

lemma runT_no_ai_oracle_free (t t' : Oracle) (ext : ExtOracle) (w : Wld)
    (c : String) (fuel : Nat) (h : routesToAi c = false) :
    runCommandT t ext true (fuel + 1) w c = runCommandT t' ext true (fuel + 1) w c := by
  cases hps : pySplit c with
  | nil => simp [runCommandT, hps]
  | cons p0 rest =>
    have hcond :
        (decide (2 < (p0 :: rest).length) && !aiReserved.contains (strLower p0) ||
          phraseHit c) = false := by
      simpa [routesToAi, hps] using h
    simp only [runCommandT, hps, Bool.and_true]
    rw [hcond]
    simp

lemma handleAiA_ok (t : Oracle) (ext : ExtOracle) (sid : String) (fuel : Nat) (w : Wld)
    (input out : String) (hok : t input = Except.ok out) (hne : strTrim out ≠ "") :
    handleAiCommandA t ext true sid fuel w input =
      runCommandA t ext true sid fuel w (strTrim out) := by
  simp [handleAiCommandA, interpretNLA, hok, hne]

lemma handleAiT_ok (t : Oracle) (ext : ExtOracle) (fuel : Nat) (w : Wld)
    (input out : String) (hok : t input = Except.ok out) (hne : strTrim out ≠ "") :
    handleAiCommandT t ext true fuel w input =
      runCommandT t ext true fuel w (strTrim out) := by
  simp [handleAiCommandT, interpretNLT, hok, hne]

/-- C2 (amended): when the translator succeeds, its (stripped) output is
re-submitted to the dispatcher itself, not interpolated into a shell; but
the re-entry is not depth-limited by the code.  One level of recursion is
all that occurs exactly when the translator's output does not itself
match an AI-routing condition: in that case the re-dispatch equals a
dispatch of the translated line, and that second dispatch consults no
translator oracle at all (its result is the same for every oracle). -/
theorem ai_redispatch_one_level_for_plain_output
    (t t' : Oracle) (ext : ExtOracle) (sid : String) (w : Wld) (input out : String) (fuel : Nat)
    (hroute : routesToAi input = true)
    (hok : t input = Except.ok out)
    (hne : strTrim out ≠ "")
    (hplain : routesToAi (strTrim out) = false) :
    (runCommandA t ext true sid (fuel + 2) w input =
        runCommandA t ext true sid (fuel + 1) w (strTrim out) ∧
      runCommandA t ext true sid (fuel + 1) w (strTrim out) =
        runCommandA t' ext true sid (fuel + 1) w (strTrim out)) ∧
    (runCommandT t ext true (fuel + 2) w input =
        runCommandT t ext true (fuel + 1) w (strTrim out) ∧
      runCommandT t ext true (fuel + 1) w (strTrim out) =
        runCommandT t' ext true (fuel + 1) w (strTrim out)) := by
  refine ⟨⟨?_, runA_no_ai_oracle_free t t' ext sid w _ fuel hplain⟩,
    ⟨?_, runT_no_ai_oracle_free t t' ext w _ fuel hplain⟩⟩
  · exact (runA_ai_route t ext sid w input (fuel + 1) hroute).trans
      (handleAiA_ok t ext sid (fuel + 1) w input out hok hne)
  · exact (runT_ai_route t ext w input (fuel + 1) hroute).trans
      (handleAiT_ok t ext (fuel + 1) w input out hok hne)

/-- Concrete check for the amended C2 statement: the phrase line
`show me the files` with a translator answering `ls` is re-dispatched
exactly once, and the second pass ignores the translator. -/
theorem ai_redispatch_one_level_for_plain_output_check :
    (runCommandA tPlain extNone true ("s") (0 + 2) wBase ("show me the files") =
        runCommandA tPlain extNone true ("s") (0 + 1) wBase (strTrim ("ls")) ∧
      runCommandA tPlain extNone true ("s") (0 + 1) wBase (strTrim ("ls")) =
        runCommandA tNone extNone true ("s") (0 + 1) wBase (strTrim ("ls"))) ∧
    (runCommandT tPlain extNone true (0 + 2) wBase ("show me the files") =
        runCommandT tPlain extNone true (0 + 1) wBase (strTrim ("ls")) ∧
      runCommandT tPlain extNone true (0 + 1) wBase (strTrim ("ls")) =
        runCommandT tNone extNone true (0 + 1) wBase (strTrim ("ls"))) :=
  ai_redispatch_one_level_for_plain_output tPlain tNone extNone ("s") wBase
    ("show me the files") ("ls") 0 (by decide) rfl (by decide) (by decide)

lemma chdirW_hist {w : Wld} {s : String} {w1 : Wld} (h : chdirW w s = Except.ok w1) :
    w1.hist = w.hist := by
  simp only [chdirW] at h
  split at h
  · cases h; rfl
  · split at h <;> cases h

lemma cdCore_hist {w : Wld} {t : String} {w1 : Wld} (h : cdCore w t = Except.ok w1) :
    w1.hist = w.hist := by
  simp only [cdCore] at h
  split at h
  · exact chdirW_hist h
  · split at h
    · cases h; rfl
    · split at h
      · exact chdirW_hist h
      · exact chdirW_hist h

lemma handleCdA_hist (w : Wld) (args : List String) :
    (handleCdA w args).1.hist = w.hist := by
  cases args with
  | nil => rfl
  | cons t rest =>
    simp only [handleCdA]
    cases hc : cdCore w t with
    | ok w1 => exact cdCore_hist hc
    | error e => cases e <;> rfl

lemma handleMkdirA_hist (w : Wld) (args : List String) :
    (handleMkdirA w args).1.hist = w.hist := by
  cases args with
  | nil => rfl
  | cons d rest =>
    simp only [handleMkdirA]
    cases hm : makedirs w.fs (resolvePath w.cwd d) with
    | ok fs1 => rfl
    | error e => cases e <;> rfl

lemma handleRmA_hist (w : Wld) (args : List String) :
    (handleRmA w args).1.hist = w.hist := by
  cases args with
  | nil => rfl
  | cons f rest =>
    simp only [handleRmA]
    split
    · rfl
    · split <;> rfl

/-- The dispatcher itself never touches the history ledger: only the
outer `/execute` route appends. -/
lemma runCommandA_hist (fuel : Nat) :
    ∀ (t : Oracle) (ext : ExtOracle) (ai : Bool) (sid : String) (w : Wld) (c : String)
      (w1 : Wld) (r : CmdResult),
      runCommandA t ext ai sid fuel w c = some (w1, r) → w1.hist = w.hist := by
  induction fuel with
  | zero =>
    intro t ext ai sid w c w1 r h
    simp [runCommandA] at h
  | succ n ih =>
    intro t ext ai sid w c w1 r h
    simp only [runCommandA] at h
    split at h
    case h_1 =>
      injection h with h2
      have h3 : _ = w1 := congrArg Prod.fst h2
      rw [← h3]
    case h_2 p0 tail heq =>
      by_cases hcond :
          (decide (2 < (pySplit c).length) && !aiReserved.contains (strLower p0) && ai ||
            phraseHit c && ai) = true
      · rw [if_pos hcond] at h
        split at h
        · injection h with h2
          have h3 : _ = w1 := congrArg Prod.fst h2
          rw [← h3]
        · split at h
          · exact ih _ _ _ _ _ _ _ _ h
          · injection h with h2
            have h3 : _ = w1 := congrArg Prod.fst h2
            rw [← h3]
      · rw [if_neg hcond] at h
        by_cases hx0 : strLower p0 = "pwd"
        · rw [if_pos hx0] at h
          injection h with h2
          have h3 : _ = w1 := congrArg Prod.fst h2
          rw [← h3]
        · rw [if_neg hx0] at h
          by_cases hx1 : strLower p0 = "ls"
          · rw [if_pos hx1] at h
            injection h with h2
            have h3 : _ = w1 := congrArg Prod.fst h2
            rw [← h3]
          · rw [if_neg hx1] at h
            by_cases hx2 : strLower p0 = "cd"
            · rw [if_pos hx2] at h
              injection h with h2
              have h3 : _ = w1 := congrArg Prod.fst h2
              rw [← h3]
              exact handleCdA_hist w _
            · rw [if_neg hx2] at h
              by_cases hx3 : strLower p0 = "mkdir"
              · rw [if_pos hx3] at h
                injection h with h2
                have h3 : _ = w1 := congrArg Prod.fst h2
                rw [← h3]
                exact handleMkdirA_hist w _
              · rw [if_neg hx3] at h
                by_cases hx4 : strLower p0 = "rm"
                · rw [if_pos hx4] at h
                  injection h with h2
                  have h3 : _ = w1 := congrArg Prod.fst h2
                  rw [← h3]
                  exact handleRmA_hist w _
                · rw [if_neg hx4] at h
                  by_cases hx5 : strLower p0 = "cat"
                  · rw [if_pos hx5] at h
                    injection h with h2
                    have h3 : _ = w1 := congrArg Prod.fst h2
                    rw [← h3]
                  · rw [if_neg hx5] at h
                    by_cases hx6 : strLower p0 = "cpu"
                    · rw [if_pos hx6] at h
                      injection h with h2
                      have h3 : _ = w1 := congrArg Prod.fst h2
                      rw [← h3]
                    · rw [if_neg hx6] at h
                      by_cases hx7 : (decide (strLower p0 = "mem") || decide (strLower p0 = "memory")) = true
                      · rw [if_pos hx7] at h
                        injection h with h2
                        have h3 : _ = w1 := congrArg Prod.fst h2
                        rw [← h3]
                      · rw [if_neg hx7] at h
                        by_cases hx8 : (decide (strLower p0 = "processes") || decide (strLower p0 = "ps")) = true
                        · rw [if_pos hx8] at h
                          injection h with h2
                          have h3 : _ = w1 := congrArg Prod.fst h2
                          rw [← h3]
                        · rw [if_neg hx8] at h
                          by_cases hx9 : strLower p0 = "help"
                          · rw [if_pos hx9] at h
                            injection h with h2
                            have h3 : _ = w1 := congrArg Prod.fst h2
                            rw [← h3]
                          · rw [if_neg hx9] at h
                            by_cases hx10 : strLower p0 = "tellmeabout_developer"
                            · rw [if_pos hx10] at h
                              injection h with h2
                              have h3 : _ = w1 := congrArg Prod.fst h2
                              rw [← h3]
                            · rw [if_neg hx10] at h
                              by_cases hx11 : strLower p0 = "clear"
                              · rw [if_pos hx11] at h
                                injection h with h2
                                have h3 : _ = w1 := congrArg Prod.fst h2
                                rw [← h3]
                              · rw [if_neg hx11] at h
                                by_cases hx12 : strLower p0 = "history"
                                · rw [if_pos hx12] at h
                                  injection h with h2
                                  have h3 : _ = w1 := congrArg Prod.fst h2
                                  rw [← h3]
                                · rw [if_neg hx12] at h
                                  injection h with h2
                                  have h3 : _ = w1 := congrArg Prod.fst h2
                                  rw [← h3]

/-- The world after `execute_command` has appended the history record. -/
def postWorld (w1 : Wld) (sid : String) (e : HEntry) : Wld :=
  {w1 with hist := addToHistory w1.hist sid e}

/-- The JSON body `execute_command` produces for a dispatch result, as a
function of that result and of the post-dispatch world. -/
def execResp (r : CmdResult) (w2 : Wld) : WebResp :=
  if r.output = "CLEAR_SCREEN" then ⟨true, "", "", false, true, none⟩
  else ⟨r.success, r.output, r.error, false, false, some (renderPath w2.cwd)⟩

/-- C4 counterexample: a failing dispatch (`cd` with a missing argument,
succeeded=false) still appends one HistoryEntry to the session ledger, so
it is not exactly the successful dispatches that append. -/
theorem history_appends_failed_dispatch :
    ((executeCommandA tNone extNone false ("s") 5 wBase ("cd")).map
      (fun p => ((getHistoryRoute p.1.hist ("s")).map (fun e => (e.command, e.success)),
        p.2.success))) = some ([(("cd"), false)], false) := by
  decide

/-- C4 (amended): every dispatch of a non-empty, non-exit input — whether
it succeeds or fails — appends exactly one HistoryEntry, and only at the
outermost call: the dispatcher itself never changes the ledger, and the
appended entry's command field holds the stripped original raw input, not
the resolved or translated command. -/
theorem history_append_outermost_every_dispatch :
    (∀ (t : Oracle) (ext : ExtOracle) (ai : Bool) (sid : String) (fuel : Nat) (w : Wld)
      (c : String) (w1 : Wld) (r : CmdResult),
      runCommandA t ext ai sid fuel w c = some (w1, r) → w1.hist = w.hist) ∧
    (∀ (t : Oracle) (ext : ExtOracle) (ai : Bool) (sid : String) (fuel : Nat) (w : Wld)
      (raw : String) (w1 : Wld) (r : CmdResult),
      strTrim raw ≠ "" →
      [("exit"), ("quit"), ("q")].contains (strLower (strTrim raw)) = false →
      runCommandA t ext ai sid fuel w (strTrim raw) = some (w1, r) →
      executeCommandA t ext ai sid fuel w raw =
        some (postWorld w1 sid ⟨w1.time, strTrim raw, r.output, r.success⟩,
          execResp r (postWorld w1 sid ⟨w1.time, strTrim raw, r.output, r.success⟩)) ∧
      getHistoryRoute (addToHistory w1.hist sid ⟨w1.time, strTrim raw, r.output, r.success⟩)
          sid =
        getHistoryRoute w1.hist sid ++ [⟨w1.time, strTrim raw, r.output, r.success⟩]) := by
  constructor
  · intro t ext ai sid fuel w c w1 r h
    exact runCommandA_hist fuel t ext ai sid w c w1 r h
  · intro t ext ai sid fuel w raw w1 r h1 h2 h3
    refine ⟨?_, addToHistory_get _ _ _⟩
    have h2b : ¬strLower (strTrim raw) = ("exit") ∧ ¬strLower (strTrim raw) = ("quit") ∧
        ¬strLower (strTrim raw) = ("q") := by simpa using h2
    by_cases hcl : r.output = "CLEAR_SCREEN" <;>
      simp [executeCommandA, h1, h2b, h3, hcl, execResp, postWorld]

/-- Concrete check for the amended C4 statement: dispatching `pwd`
appends one entry, keyed by the raw input `pwd`, to the ledger. -/
theorem history_append_outermost_every_dispatch_check :
    executeCommandA tNone extNone false ("s") 1 wBase ("pwd") =
      some (postWorld wBase ("s") ⟨wBase.time, strTrim ("pwd"), ("/"), true⟩,
        execResp ⟨true, ("/"), ""⟩
          (postWorld wBase ("s") ⟨wBase.time, strTrim ("pwd"), ("/"), true⟩)) ∧
    getHistoryRoute (addToHistory wBase.hist ("s") ⟨wBase.time, strTrim ("pwd"), ("/"), true⟩)
        ("s") =
      getHistoryRoute wBase.hist ("s") ++ [⟨wBase.time, strTrim ("pwd"), ("/"), true⟩] :=
  history_append_outermost_every_dispatch.2 tNone extNone false ("s") 1 wBase ("pwd") wBase
    ⟨true, ("/"), ""⟩ (by decide) (by decide) (by decide)

/-- A world with two root files `f1` and `f2`. -/
def wFiles : Wld :=
  { wBase with fs := [([("f1")], FsEntry.file (("x"))), ([("f2")], FsEntry.file (("y")))] }

/-- Concrete check for C9: with two existing files, remove-file deletes
only the first, reports success, and leaves the second untouched; and
list-directory with two arguments equals list-directory with the first. -/
theorem path_builtins_use_first_argument_check :
    handleLsA wFiles [("f1"), ("f2")] = handleLsA wFiles [("f1")] ∧
    ((handleRmA wFiles [("f1"), ("f2")]).2.success = true ∧
      fsIsFile (handleRmA wFiles [("f1"), ("f2")]).1.fs (resolvePath wFiles.cwd ("f1")) = false ∧
      fsIsFile (handleRmA wFiles [("f1"), ("f2")]).1.fs (resolvePath wFiles.cwd ("f2")) = true) :=
  ⟨(path_builtins_use_first_argument wFiles ("f1") ("f2") []).1,
    (path_builtins_use_first_argument wFiles ("f1") ("f2") []).2.2.2.2.2.2.2.2.2.2
      (by decide) (by decide) (by decide) (by decide)⟩

end PyTerm
